import Mathlib

/-!
A shallow embedding of `multi_price_feeds.py` (JxFeedBot): the change
detector `should_post`, the Telegram delivery path `tg_post` / `post_price`,
and the poll loop with its multiplicative backoff controller.

Modelling conventions:
* Python floats are modelled as exact rationals (`ℚ`); every concrete price
  appearing in the claims is exactly representable and its decimal rounding
  agrees with the binary-float computation.
* Python's `round(x, n)` (round-half-to-even on `x * 10^n`) is `pyRound`.
* The network is abstracted by oracles: a per-asset Telegram response status
  (`Option ℕ`, `none` meaning a transport-level exception such as a timeout)
  and, per cycle, a fetch outcome (`FetchOutcome`).
* `int(backoff * 1.5)` is `b * 3 / 2` in `ℕ`: for every backoff value in the
  clamp range the float product is exact and truncation equals floor.
-/

/-- Python's `abs` on a rational. -/
def ratAbs (x : ℚ) : ℚ :=
  if x < 0 then -x else x

/-- Round-half-to-even to the nearest integer, as Python's `round` does,
computed on the reduced fraction `x.num / x.den`: `f` is the floor (the
denominator is positive, so Euclidean division floors) and the fractional
part `rem / d` is compared against `1/2` by cross-multiplication. -/
def roundHalfEven (x : ℚ) : ℤ :=
  let n := x.num
  let d := (x.den : ℤ)
  let f := Int.ediv n d
  let rem := n - f * d
  if 2 * rem < d then f
  else if d < 2 * rem then f + 1
  else if f % 2 = 0 then f else f + 1

/-- Python's `round(x, d)` for nonnegative numbers of digits `d`. -/
def pyRound (x : ℚ) (d : ℕ) : ℚ :=
  ((roundHalfEven (x * 10 ^ d) : ℚ)) / 10 ^ d

/-- The detector `should_post` (src/multi_price_feeds.py lines 81-89) with the globals
`PRICE_DECIMALS` and `MIN_ABS_MOVE` passed explicitly, and the read
`last_price.get(sym)` passed as the `prev` argument. -/
def should_post (prev : Option ℚ) (new_price : ℚ) (decimals : ℕ)
    (min_abs_move : ℚ) : Bool :=
  match prev with
  | none => true
  | some p =>
    if pyRound new_price decimals ≠ pyRound p decimals then
      if 0 < min_abs_move ∧ ratAbs (new_price - p) < min_abs_move then false
      else true
    else false

/-- Outcome of `tg_post` (lines 91-98) as a function of the HTTP response
status: `r.raise_for_status()` raises exactly when `400 ≤ status < 600`,
so `tg_post` returns normally (success) for every other status. -/
def tg_post_ok (status : ℕ) : Bool :=
  if 400 ≤ status ∧ status < 600 then false else true

/-- Whether the delivery call for one asset succeeds, given its response:
`none` models a transport exception (always a failure); a status is a
success exactly when `raise_for_status` does not raise. -/
def tgDeliver (resp : Option ℕ) : Bool :=
  match resp with
  | none => false
  | some s => tg_post_ok s

/-- The notifier wrapper `post_price` (lines 100-108) acting on the `last_price` state: the slot
is written only when `tg_post` returned without raising; any exception is
caught and leaves the state unchanged. -/
def post_price (resp : Option ℕ) (st : String → Option ℚ) (sym : String)
    (price : ℚ) : String → Option ℚ :=
  if tgDeliver resp then (fun s => if s = sym then some price else st s)
  else st

/-- Static configuration read from the environment at startup. -/
structure Config where
  channels : String → Option String
  decimals : ℕ
  minAbsMove : ℚ

/-- One iteration of the per-asset body of the poll loop (lines 138-148):
skip when the channel is missing or empty; force an initial post when the
slot is unset; otherwise consult `should_post`. Returns the new `last_price`
state and the list of symbols for which a notification was attempted. -/
def step_asset (cfg : Config) (resp : String → Option ℕ)
    (st : String → Option ℚ) (sp : String × ℚ) :
    (String → Option ℚ) × List String :=
  match cfg.channels sp.1 with
  | none => (st, [])
  | some chat =>
    if chat = "" then (st, [])
    else if st sp.1 = none then
      (post_price (resp sp.1) st sp.1 sp.2, [sp.1])
    else if should_post (st sp.1) sp.2 cfg.decimals cfg.minAbsMove then
      (post_price (resp sp.1) st sp.1 sp.2, [sp.1])
    else (st, [])

/-- The per-asset loop over the fetched prices, in fetch order. -/
def run_assets (cfg : Config) (resp : String → Option ℕ) :
    (String → Option ℚ) → List (String × ℚ) →
    (String → Option ℚ) × List String
  | st, [] => (st, [])
  | st, sp :: rest =>
    let r1 := step_asset cfg resp st sp
    let r2 := run_assets cfg resp r1.1 rest
    (r2.1, r1.2 ++ r2.2)

/-- Outcome of one `fetch_prices()` call: a price mapping, an
`requests.HTTPError` carrying the response status (`none` when the
exception has no response), or any other exception. -/
inductive FetchOutcome where
  | ok (prices : List (String × ℚ))
  | httpError (status : Option ℕ)
  | exc
deriving DecidableEq

/-- The retryable-status test of line 153: `status in (429, 500, 502, 503, 504)`. -/
def retryableStatus (status : Option ℕ) : Bool :=
  match status with
  | some 429 => true
  | some 500 => true
  | some 502 => true
  | some 503 => true
  | some 504 => true
  | _ => false

/-- The clamp of line 154: `min(max(int(backoff * 1.5), 30), 180)`. -/
def backoffStep (b : ℕ) : ℕ :=
  min (max (b * 3 / 2) 30) 180

/-- The loop-owned mutable state: `last_price` and `backoff`. -/
structure LoopState where
  last : String → Option ℚ
  backoff : ℕ

/-- One full cycle of `loop` (lines 135-162) for poll interval `P`:
on fetch success run the per-asset body, sleep `P` and reset the backoff;
on a retryable `HTTPError` escalate the backoff and sleep it; on any other
error sleep the current backoff unchanged. Returns the new state, the
sleep duration, and the notification attempts of the cycle. -/
def loop_cycle (cfg : Config) (P : ℕ) (resp : String → Option ℕ)
    (fo : FetchOutcome) (ls : LoopState) : LoopState × ℕ × List String :=
  match fo with
  | .ok prices =>
    let r := run_assets cfg resp ls.last prices
    (⟨r.1, P⟩, P, r.2)
  | .httpError status =>
    if retryableStatus status then
      let b := backoffStep ls.backoff
      (⟨ls.last, b⟩, b, [])
    else (⟨ls.last, ls.backoff⟩, ls.backoff, [])
  | .exc => (⟨ls.last, ls.backoff⟩, ls.backoff, [])

/-- Run the poll loop over a script of cycles (each entry: the fetch
outcome and the Telegram response oracle of that cycle). Emits, per cycle,
the sleep duration and the notification attempts. -/
def runLoop (cfg : Config) (P : ℕ) :
    List (FetchOutcome × (String → Option ℕ)) → LoopState →
    List (ℕ × List String) × LoopState
  | [], ls => ([], ls)
  | (fo, resp) :: rest, ls =>
    let c := loop_cycle cfg P resp fo ls
    let r := runLoop cfg P rest c.1
    ((c.2.1, c.2.2) :: r.1, r.2)

/-- A configuration with no channels, used for backoff-only runs. -/
def cfg0 : Config := ⟨fun _ => none, 2, 0⟩

/-- The deployed BTC configuration slice: decimals 2, no move threshold. -/
def cfgBTC : Config :=
  ⟨fun s => if s = "BTC" then some ("@BTCLiveFeed") else none, 2, 0⟩

/-- The embedded `abs` agrees with Mathlib's absolute value on `ℚ`. -/
theorem ratAbs_eq_abs (x : ℚ) : ratAbs x = |x| := by
  unfold ratAbs
  rcases le_or_lt 0 x with h | h
  · rw [if_neg (not_lt.mpr h), abs_of_nonneg h]
  · rw [if_pos h, abs_of_neg h]

/-- Claim C1: if the two prices round equal at the configured precision,
`should_post` returns false, whatever `min_abs_move` is. -/
theorem should_post_rounded_eq (p1 p2 : ℚ) (d : ℕ) (m : ℚ)
    (h : pyRound p1 d = pyRound p2 d) :
    should_post (some p1) p2 d m = false := by
  simp [should_post, h]

/-- Witness for C1 at `p1 = p2 = 1`, `d = 0`, `m = 5`. -/
theorem should_post_rounded_eq_witness :
    pyRound (1 : ℚ) 0 = pyRound (1 : ℚ) 0 ∧
      should_post (some (1 : ℚ)) 1 0 5 = false :=
  ⟨rfl, should_post_rounded_eq 1 1 0 5 rfl⟩

/-- Claim C2: when the rounded prices differ, `should_post` is true when
the threshold is zero or the unrounded move reaches it, and false when the
unrounded move is positive but below the threshold. -/
theorem should_post_rounded_ne (p1 p2 : ℚ) (d : ℕ) (m : ℚ)
    (h : pyRound p1 d ≠ pyRound p2 d) :
    ((m = 0 ∨ m ≤ |p2 - p1|) → should_post (some p1) p2 d m = true) ∧
    ((0 < |p2 - p1| ∧ |p2 - p1| < m) → should_post (some p1) p2 d m = false) := by
  constructor
  · intro hm
    have hne : pyRound p2 d ≠ pyRound p1 d := fun hh => h hh.symm
    have hno : ¬ (0 < m ∧ ratAbs (p2 - p1) < m) := by
      rw [ratAbs_eq_abs]
      rcases hm with hm | hm
      · rintro ⟨h1, -⟩
        exact absurd (hm ▸ h1) (lt_irrefl 0)
      · rintro ⟨-, h2⟩
        exact absurd (lt_of_le_of_lt hm h2) (lt_irrefl m)
    simp [should_post, hne, hno]
  · rintro ⟨h1, h2⟩
    have hne : pyRound p2 d ≠ pyRound p1 d := fun hh => h hh.symm
    have hyes : 0 < m ∧ ratAbs (p2 - p1) < m := by
      rw [ratAbs_eq_abs]
      exact ⟨lt_trans h1 h2, h2⟩
    simp [should_post, hne, hyes]

/-- Witness for C2 at `p1 = 0`, `p2 = 1`, `d = 0`, `m = 0`. -/
theorem should_post_rounded_ne_witness :
    pyRound (0 : ℚ) 0 ≠ pyRound (1 : ℚ) 0 ∧
      should_post (some (0 : ℚ)) 1 0 0 = true :=
  ⟨by with_unfolding_all decide,
   (should_post_rounded_ne 0 1 0 0 (by with_unfolding_all decide)).1 (Or.inl rfl)⟩

/-- Claim C6: with the last price unset, `should_post` returns true for
every new price, precision and threshold. -/
theorem should_post_first_observation (p : ℚ) (d : ℕ) (m : ℚ) :
    should_post none p d m = true := rfl

/-- The backoff clamp never exceeds the ceiling. -/
theorem backoffStep_le_ceiling (b : ℕ) : backoffStep b ≤ 180 :=
  min_le_right _ _

/-- Below the ceiling, the backoff clamp never shrinks the backoff. -/
theorem le_backoffStep (b : ℕ) (hb : b ≤ 180) : b ≤ backoffStep b := by
  have h1 : b ≤ b * 3 / 2 := by
    rw [Nat.le_div_iff_mul_le (by norm_num : 0 < 2)]
    omega
  exact le_min (le_trans h1 (le_max_left _ _)) hb

/-- Every sleep duration emitted by the loop stays in `[P, 180]`, provided
the starting backoff does. -/
theorem runLoop_sleeps_bounded (cfg : Config) (P : ℕ) (hP : P ≤ 180)
    (script : List (FetchOutcome × (String → Option ℕ))) :
    ∀ ls : LoopState, P ≤ ls.backoff → ls.backoff ≤ 180 →
      ∀ s ∈ ((runLoop cfg P script ls).1).map Prod.fst, P ≤ s ∧ s ≤ 180 := by
  induction script with
  | nil =>
    intro ls h1 h2 s hs
    simp [runLoop] at hs
  | cons head rest ih =>
    obtain ⟨fo, resp⟩ := head
    intro ls h1 h2 s hs
    cases fo with
    | ok prices =>
      simp only [runLoop, loop_cycle, List.map_cons, List.mem_cons] at hs
      rcases hs with hs | hs
      · subst hs
        exact ⟨le_refl _, hP⟩
      · exact ih _ (le_refl P) hP s (by simpa using hs)
    | httpError status =>
      by_cases hr : retryableStatus status = true
      · simp only [runLoop, loop_cycle, hr, if_true, List.map_cons,
          List.mem_cons] at hs
        have hb1 : P ≤ backoffStep ls.backoff :=
          le_trans h1 (le_backoffStep _ h2)
        have hb2 : backoffStep ls.backoff ≤ 180 := backoffStep_le_ceiling _
        rcases hs with hs | hs
        · subst hs
          exact ⟨hb1, hb2⟩
        · exact ih _ hb1 hb2 s (by simpa using hs)
      · rw [Bool.not_eq_true] at hr
        simp only [runLoop, loop_cycle, hr, Bool.false_eq_true, if_false,
          List.map_cons, List.mem_cons] at hs
        rcases hs with hs | hs
        · subst hs
          exact ⟨h1, h2⟩
        · exact ih _ h1 h2 s (by simpa using hs)
    | exc =>
      simp only [runLoop, loop_cycle, List.map_cons, List.mem_cons] at hs
      rcases hs with hs | hs
      · subst hs
        exact ⟨h1, h2⟩
      · exact ih _ h1 h2 s (by simpa using hs)

/-- Claim C3: from base interval 60, three consecutive retryable failures
(drawn from the retryable set 429/500/502/503/504) produce the backoff and
sleep values 90, 135, 180, and the next successful cycle resets to 60. -/
theorem backoff_escalation_sequence :
    ((runLoop cfg0 60
        [(FetchOutcome.httpError (some 429), fun _ => none),
         (FetchOutcome.httpError (some 500), fun _ => none),
         (FetchOutcome.httpError (some 502), fun _ => none),
         (FetchOutcome.ok [], fun _ => none)]
        ⟨fun _ => none, 60⟩).1).map Prod.fst = [90, 135, 180, 60] ∧
    (runLoop cfg0 60
        [(FetchOutcome.httpError (some 429), fun _ => none),
         (FetchOutcome.httpError (some 500), fun _ => none),
         (FetchOutcome.httpError (some 502), fun _ => none),
         (FetchOutcome.ok [], fun _ => none)]
        ⟨fun _ => none, 60⟩).2.backoff = 60 ∧
    ([429, 500, 502, 503, 504].all fun s => retryableStatus (some s)) = true := by
  refine ⟨rfl, rfl, rfl⟩

/-- Claim C8 as stated fails: with configured poll interval 200 the first
successful cycle sleeps 200 seconds, above the ceiling 180 (and outside
`[200, 180]`, which is empty). -/
theorem backoff_bound_violated :
    ((runLoop cfg0 200 [(FetchOutcome.ok [], fun _ => none)]
        ⟨fun _ => none, 200⟩).1).map Prod.fst = [200] ∧ ¬ (200 ≤ 180) := by
  exact ⟨rfl, by norm_num⟩

/-- Claim C8 (amended): provided the configured poll interval `P` is at
most the ceiling 180, every sleep duration used by the loop, over every
sequence of cycle outcomes, stays within `[P, 180]`. -/
theorem backoff_sleep_bounds (cfg : Config) (P : ℕ)
    (script : List (FetchOutcome × (String → Option ℕ)))
    (st : String → Option ℚ) (hP : P ≤ 180) :
    ∀ s ∈ ((runLoop cfg P script ⟨st, P⟩).1).map Prod.fst,
      P ≤ s ∧ s ≤ 180 :=
  runLoop_sleeps_bounded cfg P hP script ⟨st, P⟩ (le_refl P) hP

/-- Witness for C8 (amended) at `P = 60` and a single retryable failure:
the one sleep is 90, inside `[60, 180]`. -/
theorem backoff_sleep_bounds_witness :
    60 ≤ 180 ∧ (60 ≤ 90 ∧ 90 ≤ 180) :=
  ⟨by norm_num,
   backoff_sleep_bounds cfg0 60
     [(FetchOutcome.httpError (some 429), fun _ => none)]
     (fun _ => none) (by norm_num) 90 (by decide)⟩

/-- A failed delivery leaves the whole `last_price` state untouched. -/
theorem post_price_fail (resp : Option ℕ) (st : String → Option ℚ)
    (sym : String) (price : ℚ) (h : tgDeliver resp = false) :
    post_price resp st sym price = st := by
  simp [post_price, h]

/-- A delivery for one symbol never touches another symbol's slot. -/
theorem post_price_apply_ne (resp : Option ℕ) (st : String → Option ℚ)
    (sym s : String) (price : ℚ) (h : s ≠ sym) :
    post_price resp st sym price s = st s := by
  unfold post_price
  split
  · simp [h]
  · rfl

/-- When the delivery for the processed asset fails, its per-asset step
leaves the state unchanged. -/
theorem step_asset_fail (cfg : Config) (resp : String → Option ℕ)
    (st : String → Option ℚ) (sp : String × ℚ)
    (h : tgDeliver (resp sp.1) = false) :
    (step_asset cfg resp st sp).1 = st := by
  unfold step_asset
  rw [post_price_fail _ _ _ _ h]
  split
  · rfl
  · split_ifs <;> rfl

/-- One per-asset step can change the slot of `sym` only if the delivery
for `sym` succeeded. -/
theorem step_asset_apply (cfg : Config) (resp : String → Option ℕ)
    (st : String → Option ℚ) (sp : String × ℚ) (sym : String)
    (hf : tgDeliver (resp sym) = false) :
    (step_asset cfg resp st sp).1 sym = st sym := by
  by_cases he : sp.1 = sym
  · rw [step_asset_fail cfg resp st sp (he ▸ hf)]
  · unfold step_asset
    split
    · rfl
    · split_ifs <;>
        first
          | rfl
          | exact post_price_apply_ne _ _ _ _ _ fun hh => he hh.symm

/-- Claim C4: when the notification delivery for an asset fails, a whole
cycle of per-asset processing leaves that asset's last-known price exactly
as it was (set or unset), so the next cycle repeats the same comparison;
the slot takes the new price only on a successful delivery. -/
theorem failed_delivery_keeps_last_price (cfg : Config)
    (resp : String → Option ℕ) (st : String → Option ℚ)
    (prices : List (String × ℚ)) (sym : String)
    (hf : tgDeliver (resp sym) = false) :
    ((run_assets cfg resp st prices).1) sym = st sym ∧
    (∀ r p, tgDeliver r = true → post_price r st sym p sym = some p) := by
  constructor
  · induction prices generalizing st with
    | nil => rfl
    | cons sp rest ih =>
      simp only [run_assets]
      exact (ih _).trans (step_asset_apply cfg resp st sp sym hf)
  · intro r p hr
    simp [post_price, hr]

/-- Witness for C4: a 500 response for BTC leaves the slot at its old
value 3, while a 200 response would store the new price. -/
theorem failed_delivery_keeps_last_price_witness :
    ((run_assets cfgBTC (fun _ => some 500) (fun _ => some 3)
        [("BTC", 7)]).1) "BTC" = some (3 : ℚ) ∧
    post_price (some 200) (fun _ => some 3) "BTC" 7 "BTC" = some (7 : ℚ) :=
  ⟨(failed_delivery_keeps_last_price cfgBTC _ _ [("BTC", 7)] "BTC"
      (by decide)).1,
   (failed_delivery_keeps_last_price cfgBTC (fun _ => some 500)
      (fun _ => some 3) [("BTC", 7)] "BTC" (by decide)).2 (some 200) 7
      (by decide)⟩

/-- Claim C5: the loop survives every cycle outcome — a scripted run always
executes exactly as many cycles as the script has entries, whatever mix of
fetch errors and delivery failures occurs — and a failed delivery for one
asset leaves the remaining assets of the same cycle processed exactly as
they would have been from the same state. -/
theorem loop_error_isolation :
    (∀ (cfg : Config) (P : ℕ)
        (script : List (FetchOutcome × (String → Option ℕ))) (ls : LoopState),
        ((runLoop cfg P script ls).1).length = script.length) ∧
    (∀ (cfg : Config) (resp : String → Option ℕ) (st : String → Option ℚ)
        (sp : String × ℚ) (rest : List (String × ℚ)),
        tgDeliver (resp sp.1) = false →
        run_assets cfg resp st (sp :: rest) =
          ((run_assets cfg resp st rest).1,
            (step_asset cfg resp st sp).2 ++
              (run_assets cfg resp st rest).2)) := by
  constructor
  · intro cfg P script
    induction script with
    | nil => intro ls; rfl
    | cons head rest ih =>
      obtain ⟨fo, resp⟩ := head
      intro ls
      simp only [runLoop, List.length_cons, ih]
  · intro cfg resp st sp rest hf
    simp only [run_assets]
    rw [step_asset_fail cfg resp st sp hf]

/-- Witness for C5: one cycle with an unexpected exception still yields one
emitted cycle record, and a failed ETH delivery leaves the rest of the
asset list processed from an unchanged state. -/
theorem loop_error_isolation_witness :
    ((runLoop cfg0 60 [(FetchOutcome.exc, fun _ => none)]
        ⟨fun _ => none, 60⟩).1).length = 1 ∧
    run_assets cfgBTC (fun _ => some 500) (fun _ => some 1)
        [("ETH", 2), ("BTC", 3)] =
      ((run_assets cfgBTC (fun _ => some 500) (fun _ => some 1)
          [("BTC", 3)]).1,
        (step_asset cfgBTC (fun _ => some 500) (fun _ => some 1)
            ("ETH", 2)).2 ++
          (run_assets cfgBTC (fun _ => some 500) (fun _ => some 1)
            [("BTC", 3)]).2) :=
  ⟨loop_error_isolation.1 cfg0 60 _ _,
   loop_error_isolation.2 cfgBTC _ _ ("ETH", 2) [("BTC", 3)] (by decide)⟩

/-- Claim C7 as stated fails: HTTP status 304 is not a 2xx status, yet
`raise_for_status` raises only on 4xx/5xx, so `tg_post` treats 304 as a
successful delivery and `post_price` stores the new price. -/
theorem non2xx_treated_as_success :
    tg_post_ok 304 = true ∧ ¬ (200 ≤ 304 ∧ 304 ≤ 299) ∧
    post_price (some 304) (fun _ => none) "BTC" 1 "BTC" = some (1 : ℚ) :=
  ⟨rfl, by norm_num, rfl⟩

/-- Claim C7 (amended): `tg_post` treats a response as a delivery failure
exactly when its status is 4xx or 5xx (400–599); every other status —
2xx, but also 1xx, 3xx and ≥ 600 — is treated as a successful delivery. -/
theorem tg_post_failure_iff_4xx5xx (s : ℕ) :
    tg_post_ok s = false ↔ (400 ≤ s ∧ s < 600) := by
  unfold tg_post_ok
  split_ifs with h
  · simp [h]
  · simp [h]

/-- With the channel configured, the slot unset, and the delivery failing,
one per-asset step attempts the post and leaves the state unchanged. -/
theorem step_asset_first_attempt (cfg : Config) (resp : String → Option ℕ)
    (st : String → Option ℚ) (sym c : String) (q : ℚ)
    (hc : cfg.channels sym = some c) (hc' : c ≠ "") (h0 : st sym = none)
    (hf : tgDeliver (resp sym) = false) :
    step_asset cfg resp st (sym, q) = (st, [sym]) := by
  unfold step_asset
  simp only [show (sym, q).1 = sym from rfl, hc]
  rw [if_neg hc', if_pos h0, post_price_fail _ _ _ _ hf]

/-- Claim C10: while an asset's last price is unset, every successful
fetch cycle that returns the asset attempts a notification directly (the
unset-slot branch of the loop, ahead of the `should_post` test), and as
long as delivery keeps failing the slot stays unset, so every following
cycle attempts the initial post again. -/
theorem first_post_retries (cfg : Config) (resp : String → Option ℕ)
    (st : String → Option ℚ) (sym c : String) (P : ℕ) (ps : List ℚ)
    (hc : cfg.channels sym = some c) (hc' : c ≠ "")
    (h0 : st sym = none) (hf : tgDeliver (resp sym) = false) :
    ∀ b : ℕ,
      ((runLoop cfg P (ps.map fun q => (FetchOutcome.ok [(sym, q)], resp))
          ⟨st, b⟩).1).map Prod.snd = ps.map (fun _ => [sym]) ∧
      ((runLoop cfg P (ps.map fun q => (FetchOutcome.ok [(sym, q)], resp))
          ⟨st, b⟩).2).last sym = none := by
  induction ps with
  | nil => exact fun b => ⟨rfl, h0⟩
  | cons q qs ih =>
    intro b
    have hstep : step_asset cfg resp st (sym, q) = (st, [sym]) :=
      step_asset_first_attempt cfg resp st sym c q hc hc' h0 hf
    have hrun : run_assets cfg resp st [(sym, q)] = (st, [sym]) := by
      simp only [run_assets, hstep, List.append_nil]
    constructor
    · simp only [List.map_cons, runLoop, loop_cycle, hrun, List.map_cons]
      rw [(ih P).1]
    · simp only [List.map_cons, runLoop, loop_cycle, hrun]
      exact (ih P).2

/-- Witness for C10: two successful fetch cycles for BTC with every
delivery answered 403 — both cycles attempt a post, the slot stays unset. -/
theorem first_post_retries_witness :
    ((runLoop cfgBTC 60
        ([(1 : ℚ), 2].map fun q =>
          (FetchOutcome.ok [("BTC", q)], fun _ => some 403))
        ⟨fun _ => none, 60⟩).1).map Prod.snd = [["BTC"], ["BTC"]] ∧
    ((runLoop cfgBTC 60
        ([(1 : ℚ), 2].map fun q =>
          (FetchOutcome.ok [("BTC", q)], fun _ => some 403))
        ⟨fun _ => none, 60⟩).2).last ("BTC") = none :=
  first_post_retries cfgBTC (fun _ => some 403) (fun _ => none)
    "BTC" "@BTCLiveFeed" 60 [1, 2] rfl (by decide) rfl (by decide) 60

/-- Computation rule for the rounder: when the part of `x` above its floor
`f` is below one half, `roundHalfEven x` is `f`. -/
theorem roundHalfEven_of_lt_half (x : ℚ) (f : ℤ)
    (hf : ⌊x⌋ = f) (h : x - (f : ℚ) < 1/2) : roundHalfEven x = f := by
  have hd0 : (0 : ℚ) < (x.den : ℚ) := by exact_mod_cast x.pos
  have hfl : Int.ediv x.num (x.den : ℤ) = f := by
    rw [show Int.ediv x.num (x.den : ℤ) = x.num / (x.den : ℤ) from rfl,
      ← Rat.floor_def, hf]
  have hfrac : x - (f : ℚ) =
      ((x.num - f * (x.den : ℤ) : ℤ) : ℚ) / (x.den : ℚ) := by
    push_cast
    rw [sub_div, Rat.num_div_den, mul_div_assoc, div_self (ne_of_gt hd0),
      mul_one]
  have hcond : 2 * (x.num - f * (x.den : ℤ)) < (x.den : ℤ) := by
    rw [hfrac, div_lt_div_iff₀ hd0 (by norm_num : (0 : ℚ) < 2), one_mul] at h
    have h2 : ((x.num - f * (x.den : ℤ)) * 2 : ℤ) < ((x.den : ℕ) : ℤ) := by
      exact_mod_cast h
    linarith
  simp only [roundHalfEven]
  rw [hfl, if_pos hcond]

/-- Computation rule for the rounder: when the part of `x` above its floor
`f` exceeds one half, `roundHalfEven x` is `f + 1`. -/
theorem roundHalfEven_of_half_lt (x : ℚ) (f : ℤ)
    (hf : ⌊x⌋ = f) (h : 1/2 < x - (f : ℚ)) : roundHalfEven x = f + 1 := by
  have hd0 : (0 : ℚ) < (x.den : ℚ) := by exact_mod_cast x.pos
  have hfl : Int.ediv x.num (x.den : ℤ) = f := by
    rw [show Int.ediv x.num (x.den : ℤ) = x.num / (x.den : ℤ) from rfl,
      ← Rat.floor_def, hf]
  have hfrac : x - (f : ℚ) =
      ((x.num - f * (x.den : ℤ) : ℤ) : ℚ) / (x.den : ℚ) := by
    push_cast
    rw [sub_div, Rat.num_div_den, mul_div_assoc, div_self (ne_of_gt hd0),
      mul_one]
  have hcond : (x.den : ℤ) < 2 * (x.num - f * (x.den : ℤ)) := by
    rw [hfrac, div_lt_div_iff₀ (by norm_num : (0 : ℚ) < 2) hd0, one_mul] at h
    have h2 : ((x.den : ℕ) : ℤ) < ((x.num - f * (x.den : ℤ)) * 2 : ℤ) := by
      exact_mod_cast h
    linarith
  simp only [roundHalfEven]
  rw [hfl, if_neg (not_lt.mpr (le_of_lt hcond)), if_pos hcond]

/-- Price 50000.004 rounds down to 50000.00 at two decimals. -/
theorem pyRound_btc_low : pyRound (50000.004 : ℚ) 2 = 50000 := by
  have e1 : (50000.004 : ℚ) * 10 ^ 2 = 5000000.4 := by norm_num
  have e2 : roundHalfEven (5000000.4 : ℚ) = 5000000 :=
    roundHalfEven_of_lt_half _ 5000000 (by norm_num) (by norm_num)
  simp only [pyRound, e1, e2]
  norm_num

/-- Price 50000.006 rounds up to 50000.01 at two decimals. -/
theorem pyRound_btc_high : pyRound (50000.006 : ℚ) 2 = 50000.01 := by
  have e1 : (50000.006 : ℚ) * 10 ^ 2 = 5000000.6 := by norm_num
  have e2 : roundHalfEven (5000000.6 : ℚ) = 5000001 := by
    have h := roundHalfEven_of_half_lt (5000000.6 : ℚ) 5000000
      (by norm_num) (by norm_num)
    simpa using h
  simp only [pyRound, e1, e2]
  norm_num

/-- On the C9 prices the change detector reports a change. -/
theorem should_post_btc :
    should_post (some (50000.004 : ℚ)) 50000.006 2 0 = true := by
  have hne : pyRound (50000.006 : ℚ) 2 ≠ pyRound (50000.004 : ℚ) 2 := by
    rw [pyRound_btc_low, pyRound_btc_high]
    norm_num
  simp only [should_post]
  rw [if_pos hne, if_neg]
  rintro ⟨h0, -⟩
  exact lt_irrefl 0 h0

/-- Claim C9 as stated fails: 50000.004 and 50000.006 do not round to the
same value at two decimals, and in the two-cycle run (successful
deliveries, decimals 2, threshold 0) the second cycle does send a second
notification. -/
theorem second_notification_sent :
    pyRound (50000.004 : ℚ) 2 ≠ pyRound (50000.006 : ℚ) 2 ∧
    ((runLoop cfgBTC 60
        [(FetchOutcome.ok [("BTC", 50000.004)], fun _ => some 200),
         (FetchOutcome.ok [("BTC", 50000.006)], fun _ => some 200)]
        ⟨fun _ => none, 60⟩).1).map Prod.snd = [["BTC"], ["BTC"]] := by
  constructor
  · rw [pyRound_btc_low, pyRound_btc_high]
    norm_num
  · simp [runLoop, loop_cycle, run_assets, step_asset, post_price,
      tgDeliver, tg_post_ok, cfgBTC, should_post_btc]

/-- Claim C9 (amended): in the same scenario the two prices round to
50000.00 and 50000.01 respectively — the rounded values differ — so the
detector signals a change and a second notification is sent. -/
theorem second_cycle_detects_change :
    pyRound (50000.004 : ℚ) 2 = 50000 ∧
    pyRound (50000.006 : ℚ) 2 = 50000.01 ∧
    should_post (some (50000.004 : ℚ)) 50000.006 2 0 = true :=
  ⟨pyRound_btc_low, pyRound_btc_high, should_post_btc⟩
